import Mathlib

/-!
Shallow embedding of the Xiangqi rules engine from `src/game.rs`
(`mydotey/ai-chinese-chess`), together with theorems checking the
natural-language specification against it.

The Rust `Board` owns a `[[Option<Piece>; 9]; 10]` grid (row-major,
indexed `grid[y][x]`), the side whose move it is, a UI selection, and the game
state.  The grid's fixed shape is part of its type, so here it is a
total function `Fin 10 → Fin 9 → Option Piece`.  The sole mutator
`move_piece` becomes a pure function
`Board → Pos → Pos → Board × Bool` returning the new board and the
boolean result.  The Rust parameters `from`/`to` are Lean keywords, so
they are named `fr`/`tgt` throughout.
-/

namespace Xiangqi

inductive Color where
  | Red
  | Black
  deriving DecidableEq, Repr, Fintype

def Color.opposite : Color → Color
  | .Red => .Black
  | .Black => .Red

inductive PieceType where
  | General
  | Advisor
  | Elephant
  | Horse
  | Chariot
  | Cannon
  | Soldier
  deriving DecidableEq, Repr, Fintype

structure Piece where
  color : Color
  piece_type : PieceType
  deriving DecidableEq, Repr, Fintype

structure Pos where
  x : Nat
  y : Nat
  deriving DecidableEq, Repr

inductive GameState where
  | Playing
  | Won (c : Color)
  deriving DecidableEq, Repr

/-- The `[[Option<Piece>; 9]; 10]` grid: 10 rows of 9 columns. -/
def Grid : Type := Fin 10 → Fin 9 → Option Piece

instance : DecidableEq Grid := by unfold Grid; infer_instance

/-- Read `grid[y][x]`.  Every read the Rust code performs is in bounds
(9 columns, 10 rows), so the out-of-range default is never observable. -/
def gridGet (g : Grid) (y x : Nat) : Option Piece :=
  if hy : y < 10 then
    if hx : x < 9 then g ⟨y, hy⟩ ⟨x, hx⟩ else none
  else none

/-- Write `grid[y][x] = v`.  Every write the Rust code performs is in
bounds, so the out-of-range no-op is never observable. -/
def gridSet (g : Grid) (y x : Nat) (v : Option Piece) : Grid :=
  fun i j => if i.val = y ∧ j.val = x then v else g i j

structure Board where
  grid : Grid
  turn : Color
  selected : Option Pos
  state : GameState

/-- The back-rank piece order used by `setup_row` in `Board::new`. -/
def backRankPieces : List PieceType :=
  [.Chariot, .Horse, .Elephant, .Advisor, .General, .Advisor, .Elephant, .Horse, .Chariot]

/-- The `setup_row` closure in `Board::new`: place the back-rank pieces of
`color` on row `y` at `x = 0..8`. -/
def setup_row (g : Grid) (y : Nat) (color : Color) : Grid :=
  backRankPieces.enum.foldl
    (fun g p => gridSet g y p.1 (some ⟨color, p.2⟩)) g

/-- `Board::new`, following the Rust construction order: black back rank,
black cannons, black soldiers (x stepping by 2 over 0..9), then the same
for red. -/
def Board.new : Board :=
  let g0 : Grid := fun _ _ => none
  let g1 := setup_row g0 0 .Black
  let g2 := gridSet g1 2 1 (some ⟨.Black, .Cannon⟩)
  let g3 := gridSet g2 2 7 (some ⟨.Black, .Cannon⟩)
  let g4 := [0, 2, 4, 6, 8].foldl (fun g x => gridSet g 3 x (some ⟨.Black, .Soldier⟩)) g3
  let g5 := setup_row g4 9 .Red
  let g6 := gridSet g5 7 1 (some ⟨.Red, .Cannon⟩)
  let g7 := gridSet g6 7 7 (some ⟨.Red, .Cannon⟩)
  let g8 := [0, 2, 4, 6, 8].foldl (fun g x => gridSet g 6 x (some ⟨.Red, .Soldier⟩)) g7
  { grid := g8, turn := .Red, selected := none, state := .Playing }

/-- `Board::get_piece`. -/
def Board.get_piece (b : Board) (pos : Pos) : Option Piece :=
  if pos.x < 9 ∧ pos.y < 10 then gridGet b.grid pos.y pos.x else none

/-- `Board::count_obstacles`: occupied cells strictly between `fr` and `tgt`
along the shared column (when `fr.x = tgt.x`) or row (otherwise). -/
def Board.count_obstacles (b : Board) (fr tgt : Pos) : Nat :=
  if fr.x = tgt.x then
    let min_y := min fr.y tgt.y
    let max_y := max fr.y tgt.y
    ((List.range' (min_y + 1) (max_y - (min_y + 1))).filter
      (fun y => (gridGet b.grid y fr.x).isSome)).length
  else
    let min_x := min fr.x tgt.x
    let max_x := max fr.x tgt.x
    ((List.range' (min_x + 1) (max_x - (min_x + 1))).filter
      (fun x => (gridGet b.grid fr.y x).isSome)).length

/-- The per-piece-type `match` inside `Board::is_valid_move`, factored out.
`piece` is the piece found at `fr`; `dx`, `dy` are the absolute coordinate
deltas computed exactly as in the Rust code. -/
def Board.piece_rule (b : Board) (piece : Piece) (fr tgt : Pos) : Bool :=
  let dx : Nat := ((tgt.x : Int) - (fr.x : Int)).natAbs
  let dy : Nat := ((tgt.y : Int) - (fr.y : Int)).natAbs
  match piece.piece_type with
  | .General =>
      if dx + dy ≠ 1 then false
      else if tgt.x < 3 ∨ 5 < tgt.x then false
      else
        match piece.color with
        | .Red => if tgt.y < 7 then false else true
        | .Black => if 2 < tgt.y then false else true
  | .Advisor =>
      if dx ≠ 1 ∨ dy ≠ 1 then false
      else if tgt.x < 3 ∨ 5 < tgt.x then false
      else
        match piece.color with
        | .Red => if tgt.y < 7 then false else true
        | .Black => if 2 < tgt.y then false else true
  | .Elephant =>
      if dx ≠ 2 ∨ dy ≠ 2 then false
      else if (match piece.color with
               | .Red => decide (tgt.y < 5)
               | .Black => decide (4 < tgt.y)) then false
      else
        let eye_x := (fr.x + tgt.x) / 2
        let eye_y := (fr.y + tgt.y) / 2
        if (gridGet b.grid eye_y eye_x).isSome then false else true
  | .Horse =>
      if ¬((dx = 1 ∧ dy = 2) ∨ (dx = 2 ∧ dy = 1)) then false
      else
        let leg_x := if dx = 2 then (fr.x + tgt.x) / 2 else fr.x
        let leg_y := if dy = 2 then (fr.y + tgt.y) / 2 else fr.y
        if (gridGet b.grid leg_y leg_x).isSome then false else true
  | .Chariot =>
      if dx ≠ 0 ∧ dy ≠ 0 then false
      else decide (b.count_obstacles fr tgt = 0)
  | .Cannon =>
      if dx ≠ 0 ∧ dy ≠ 0 then false
      else
        let obstacles := b.count_obstacles fr tgt
        if (b.get_piece tgt).isSome then decide (obstacles = 1)
        else decide (obstacles = 0)
  | .Soldier =>
      if dx + dy ≠ 1 then false
      else
        match piece.color with
        | .Red =>
            if fr.y < tgt.y then false
            else if 5 ≤ fr.y ∧ dx ≠ 0 then false
            else true
        | .Black =>
            if tgt.y < fr.y then false
            else if fr.y ≤ 4 ∧ dx ≠ 0 then false
            else true

/-- `Board::is_valid_move`: the shared preconditions followed by the
per-piece-type dispatch. -/
def Board.is_valid_move (b : Board) (fr tgt : Pos) : Bool :=
  if fr = tgt then false
  else if 9 ≤ tgt.x ∨ 10 ≤ tgt.y then false
  else
    match b.get_piece fr with
    | none => false
    | some piece =>
      match b.get_piece tgt with
      | some target =>
          if target.color = piece.color then false
          else b.piece_rule piece fr tgt
      | none => b.piece_rule piece fr tgt

/-- `Board::move_piece`, the sole mutator, as a pure function returning the
updated board and the Rust `bool` result. -/
def Board.move_piece (b : Board) (fr tgt : Pos) : Board × Bool :=
  if b.state ≠ GameState.Playing then (b, false)
  else
    match b.get_piece fr with
    | none => (b, false)
    | some piece =>
      if piece.color ≠ b.turn then (b, false)
      else if b.is_valid_move fr tgt then
        let state1 : GameState :=
          match b.get_piece tgt with
          | some target =>
              if target.piece_type = PieceType.General then GameState.Won b.turn
              else b.state
          | none => b.state
        let grid1 := gridSet b.grid tgt.y tgt.x (gridGet b.grid fr.y fr.x)
        let grid2 := gridSet grid1 fr.y fr.x none
        let turn1 := if state1 = GameState.Playing then b.turn.opposite else b.turn
        ({ grid := grid2, turn := turn1, selected := b.selected, state := state1 }, true)
      else (b, false)

example : Board.new.get_piece ⟨0, 0⟩ = some ⟨.Black, .Chariot⟩ := by decide
example : Board.new.get_piece ⟨4, 9⟩ = some ⟨.Red, .General⟩ := by decide
example : Board.new.get_piece ⟨1, 7⟩ = some ⟨.Red, .Cannon⟩ := by decide
example : Board.new.get_piece ⟨4, 4⟩ = none := by decide
example : (Board.new.move_piece ⟨4, 6⟩ ⟨4, 5⟩).2 = true := by decide
example : (Board.new.move_piece ⟨4, 6⟩ ⟨3, 6⟩).2 = false := by decide
example : (Board.new.move_piece ⟨4, 6⟩ ⟨4, 5⟩).1.turn = Color.Black := by decide

/-- The game state after a move resolves, as `move_piece` computes it. -/
def next_state (b : Board) (tgt : Pos) : GameState :=
  match b.get_piece tgt with
  | some target =>
      if target.piece_type = PieceType.General then GameState.Won b.turn
      else b.state
  | none => b.state

/-! ### Specification-side definitions used by refinement-style claims -/

/-- The back rank as the specification lists it (§6): Chariot, Horse,
Elephant, Advisor, General, Advisor, Elephant, Horse, Chariot at
`x = 0..8`. -/
def spec_back_rank (x : Nat) : Option PieceType :=
  match x with
  | 0 => some .Chariot
  | 1 => some .Horse
  | 2 => some .Elephant
  | 3 => some .Advisor
  | 4 => some .General
  | 5 => some .Advisor
  | 6 => some .Elephant
  | 7 => some .Horse
  | 8 => some .Chariot
  | _ => none

/-- The standard starting layout exactly as the specification describes it:
the piece (if any) standing at column `x`, row `y`. -/
def standard_layout (x y : Nat) : Option Piece :=
  if y = 0 then (spec_back_rank x).map (fun pt => ⟨Color.Black, pt⟩)
  else if y = 9 then (spec_back_rank x).map (fun pt => ⟨Color.Red, pt⟩)
  else if y = 2 ∧ (x = 1 ∨ x = 7) then some ⟨.Black, .Cannon⟩
  else if y = 7 ∧ (x = 1 ∨ x = 7) then some ⟨.Red, .Cannon⟩
  else if y = 3 ∧ (x = 0 ∨ x = 2 ∨ x = 4 ∨ x = 6 ∨ x = 8) then some ⟨.Black, .Soldier⟩
  else if y = 6 ∧ (x = 0 ∨ x = 2 ∨ x = 4 ∨ x = 6 ∨ x = 8) then some ⟨.Red, .Soldier⟩
  else none

/-- The shared preconditions of `is_valid_move`, phrased about the piece
`p` standing at `fr`: distinct squares, an in-grid destination, and no
friendly piece on the destination. -/
def shared_pre (b : Board) (fr tgt : Pos) (p : Piece) : Prop :=
  fr ≠ tgt ∧ tgt.x < 9 ∧ tgt.y < 10 ∧ b.get_piece fr = some p ∧
    ∀ q, b.get_piece tgt = some q → q.color ≠ p.color

instance (b : Board) (fr tgt : Pos) (p : Piece) :
    Decidable (shared_pre b fr tgt p) := by
  unfold shared_pre; infer_instance


/-- A small position used to witness the General-capture claim: a Black
General on (4,0), a Red Chariot on (4,1), Red to move. -/
def capture_board : Board :=
  { grid := fun i j =>
      if i.val = 0 ∧ j.val = 4 then some ⟨Color.Black, PieceType.General⟩
      else if i.val = 1 ∧ j.val = 4 then some ⟨Color.Red, PieceType.Chariot⟩
      else none,
    turn := Color.Red, selected := none, state := GameState.Playing }

/-- A position with a lone Red Horse on (0,0), used to witness C6. -/
def horse_board : Board :=
  { grid := fun i j =>
      if i.val = 0 ∧ j.val = 0 then some ⟨Color.Red, PieceType.Horse⟩ else none,
    turn := Color.Red, selected := none, state := GameState.Playing }

/-- A position with a lone Red Elephant on (2,9), used to witness C7. -/
def elephant_board : Board :=
  { grid := fun i j =>
      if i.val = 9 ∧ j.val = 2 then some ⟨Color.Red, PieceType.Elephant⟩ else none,
    turn := Color.Red, selected := none, state := GameState.Playing }


/-! ### Basic lemmas about the grid and the move machinery -/

lemma gridGet_gridSet_same (g : Grid) (y x : Nat) (v : Option Piece)
    (hy : y < 10) (hx : x < 9) :
    gridGet (gridSet g y x v) y x = v := by
  unfold gridGet gridSet
  rw [dif_pos hy, dif_pos hx, if_pos ⟨rfl, rfl⟩]

lemma gridGet_gridSet_ne (g : Grid) (y x y' x' : Nat) (v : Option Piece)
    (h : y' ≠ y ∨ x' ≠ x) :
    gridGet (gridSet g y x v) y' x' = gridGet g y' x' := by
  unfold gridGet gridSet
  split
  · split
    · rw [if_neg]
      rintro ⟨h1, h2⟩
      rcases h with h | h <;> simp_all
    · rfl
  · rfl

lemma get_piece_eq_gridGet (b : Board) (pos : Pos) (hx : pos.x < 9) (hy : pos.y < 10) :
    b.get_piece pos = gridGet b.grid pos.y pos.x := by
  unfold Board.get_piece
  rw [if_pos ⟨hx, hy⟩]

lemma get_piece_some_bounds (b : Board) (pos : Pos) (p : Piece)
    (h : b.get_piece pos = some p) : pos.x < 9 ∧ pos.y < 10 := by
  by_contra hc
  unfold Board.get_piece at h
  rw [if_neg hc] at h
  cases h

/-- Any failing branch of `move_piece` returns the input board untouched. -/
lemma move_piece_snd_false (b : Board) (fr tgt : Pos)
    (h : (b.move_piece fr tgt).2 = false) :
    b.move_piece fr tgt = (b, false) := by
  revert h
  unfold Board.move_piece
  repeat' split
  all_goals intro h
  all_goals simp_all

/-- A successful `move_piece` implies each of the gate conditions held. -/
lemma move_piece_snd_true (b : Board) (fr tgt : Pos)
    (h : (b.move_piece fr tgt).2 = true) :
    b.state = GameState.Playing ∧
      ∃ p, b.get_piece fr = some p ∧ p.color = b.turn ∧
        b.is_valid_move fr tgt = true := by
  revert h
  unfold Board.move_piece
  split
  next hs => intro h; simp at h
  next hs =>
    split
    next hp => intro h; simp at h
    next p hp =>
      split
      next hc => intro h; simp at h
      next hc =>
        split
        next hv => intro _; exact ⟨not_ne_iff.mp hs, p, hp, not_ne_iff.mp hc, hv⟩
        next hv => intro h; simp at h

/-- Explicit form of the successful branch of `move_piece`. -/
lemma move_piece_succ_eq (b : Board) (fr tgt : Pos) (p : Piece)
    (hs : b.state = GameState.Playing) (hp : b.get_piece fr = some p)
    (hc : p.color = b.turn) (hv : b.is_valid_move fr tgt = true) :
    b.move_piece fr tgt =
      ({ grid := gridSet (gridSet b.grid tgt.y tgt.x (gridGet b.grid fr.y fr.x)) fr.y fr.x none,
         turn := if next_state b tgt = GameState.Playing then b.turn.opposite else b.turn,
         selected := b.selected,
         state := next_state b tgt }, true) := by
  unfold Board.move_piece next_state
  rw [if_neg (not_ne_iff.mpr hs)]
  simp only [hp]
  rw [if_neg (not_ne_iff.mpr hc), if_pos hv]

/-- `is_valid_move = true` implies every shared precondition held. -/
lemma is_valid_move_true_elim (b : Board) (fr tgt : Pos)
    (h : b.is_valid_move fr tgt = true) :
    fr ≠ tgt ∧ tgt.x < 9 ∧ tgt.y < 10 ∧
      ∃ p, b.get_piece fr = some p ∧
        (∀ q, b.get_piece tgt = some q → q.color ≠ p.color) ∧
        b.piece_rule p fr tgt = true := by
  revert h
  unfold Board.is_valid_move
  split
  next hne => intro h; cases h
  next hne =>
    split
    next hb => intro h; cases h
    next hb =>
      split
      next hp => intro h; cases h
      next p hp =>
        split
        next q hq =>
          split
          next hcol => intro h; cases h
          next hcol =>
            intro h
            refine ⟨hne, by omega, by omega, p, hp, ?_, h⟩
            intro q' hq'
            rw [hq] at hq'
            injection hq' with hq'
            subst hq'
            exact hcol
        next hq =>
          intro h
          refine ⟨hne, by omega, by omega, p, hp, ?_, h⟩
          intro q' hq'
          rw [hq] at hq'
          cases hq'

/-- Under the shared preconditions, `is_valid_move` is exactly the
per-piece-type rule. -/
lemma is_valid_move_of_pre (b : Board) (fr tgt : Pos) (p : Piece)
    (hne : fr ≠ tgt) (hx : tgt.x < 9) (hy : tgt.y < 10)
    (hp : b.get_piece fr = some p)
    (hq : ∀ q, b.get_piece tgt = some q → q.color ≠ p.color) :
    b.is_valid_move fr tgt = b.piece_rule p fr tgt := by
  unfold Board.is_valid_move
  rw [if_neg hne, if_neg (by omega : ¬(9 ≤ tgt.x ∨ 10 ≤ tgt.y))]
  simp only [hp]
  cases hqt : b.get_piece tgt with
  | none => rfl
  | some q =>
      have hne' := hq q hqt
      simp [hne']

/-! ### The claims -/

/-- C1: `move_piece` returns `false` and leaves the whole board unchanged
whenever the game is already won, there is no piece at `fr`, the piece at
`fr` is not the mover's, `fr = tgt`, `tgt` is off the grid, `tgt` holds a
piece of the mover's own color, or the per-piece-type rule rejects the
move. -/
theorem spec_c1_move_piece_noop (b : Board) (fr tgt : Pos)
    (h : (∃ c, b.state = GameState.Won c) ∨
         b.get_piece fr = none ∨
         (∃ p, b.get_piece fr = some p ∧ p.color ≠ b.turn) ∨
         fr = tgt ∨
         9 ≤ tgt.x ∨ 10 ≤ tgt.y ∨
         (∃ p q, b.get_piece fr = some p ∧ b.get_piece tgt = some q ∧
           q.color = p.color) ∨
         (∃ p, b.get_piece fr = some p ∧ b.piece_rule p fr tgt = false)) :
    b.move_piece fr tgt = (b, false) := by
  cases hres : (b.move_piece fr tgt).2 with
  | false => exact move_piece_snd_false b fr tgt hres
  | true =>
    exfalso
    obtain ⟨hs, p, hp, hc, hv⟩ := move_piece_snd_true b fr tgt hres
    obtain ⟨hne, hx, hy, p', hp', hfr, hrule⟩ := is_valid_move_true_elim b fr tgt hv
    rw [hp] at hp'
    injection hp' with hp'
    subst hp'
    rcases h with ⟨c, hw⟩ | h | ⟨p2, hp2, hcol⟩ | h | h | h | ⟨p2, q2, hp2, hq2, hcol⟩ |
      ⟨p2, hp2, hrule2⟩
    · rw [hs] at hw; cases hw
    · rw [hp] at h; cases h
    · rw [hp] at hp2; injection hp2 with e; subst e; exact hcol hc
    · exact hne h
    · omega
    · omega
    · rw [hp] at hp2; injection hp2 with e; subst e
      exact hfr q2 hq2 hcol
    · rw [hp] at hp2; injection hp2 with e; subst e
      rw [hrule] at hrule2; cases hrule2

theorem spec_c1_witness :
    Board.new.move_piece ⟨0, 0⟩ ⟨0, 1⟩ = (Board.new, false) :=
  spec_c1_move_piece_noop Board.new ⟨0, 0⟩ ⟨0, 1⟩
    (Or.inr (Or.inr (Or.inl ⟨⟨Color.Black, PieceType.Chariot⟩, by decide, by decide⟩)))

/-- C8: `get_piece` is total: out-of-grid coordinates yield `none`, and
in-grid coordinates yield exactly the grid cell's contents.  (In this pure
embedding `get_piece : Board → Pos → Option Piece` manifestly cannot
mutate the board.) -/
theorem spec_c8_get_piece_total (b : Board) (pos : Pos) :
    (9 ≤ pos.x ∨ 10 ≤ pos.y → b.get_piece pos = none) ∧
    (∀ (hx : pos.x < 9) (hy : pos.y < 10),
      b.get_piece pos = b.grid ⟨pos.y, hy⟩ ⟨pos.x, hx⟩) := by
  constructor
  · intro h
    unfold Board.get_piece
    rw [if_neg (by omega)]
  · intro hx hy
    unfold Board.get_piece gridGet
    rw [if_pos ⟨hx, hy⟩, dif_pos hy, dif_pos hx]

theorem spec_c8_witness :
    Board.new.get_piece ⟨9, 0⟩ = none ∧
    Board.new.get_piece ⟨0, 0⟩ = Board.new.grid 0 0 :=
  ⟨(spec_c8_get_piece_total Board.new ⟨9, 0⟩).1 (by decide),
   (spec_c8_get_piece_total Board.new ⟨0, 0⟩).2 (by decide) (by decide)⟩

/-- C9: `Board.new` is exactly the standard starting position, with Red to
move, no selection, and state `Playing`. -/
theorem spec_c9_initial_board :
    Board.new.grid = (fun i j => standard_layout j.val i.val) ∧
    Board.new.turn = Color.Red ∧
    Board.new.selected = none ∧
    Board.new.state = GameState.Playing := by
  refine ⟨?_, rfl, rfl, rfl⟩
  funext i j
  fin_cases i <;> fin_cases j <;> rfl

/-- C10: `move_piece` never touches the `selected` field, whether it
succeeds or fails. -/
theorem spec_c10_selected_frame (b : Board) (fr tgt : Pos) :
    (b.move_piece fr tgt).1.selected = b.selected := by
  unfold Board.move_piece
  repeat' split
  all_goals rfl

/-- C2: a successful move in the Playing state clears `fr`, puts the moved
piece (exactly the one that stood at `fr`) on `tgt` — removing whatever was
there — leaves every other cell alone, and flips the turn unless the
capture at `tgt` was a General. -/
theorem spec_c2_move_effect (b : Board) (fr tgt : Pos)
    (hplay : b.state = GameState.Playing)
    (hsucc : (b.move_piece fr tgt).2 = true) :
    gridGet (b.move_piece fr tgt).1.grid fr.y fr.x = none ∧
    gridGet (b.move_piece fr tgt).1.grid tgt.y tgt.x = b.get_piece fr ∧
    (∀ y x : Nat, (y ≠ fr.y ∨ x ≠ fr.x) → (y ≠ tgt.y ∨ x ≠ tgt.x) →
      gridGet (b.move_piece fr tgt).1.grid y x = gridGet b.grid y x) ∧
    (∀ t, b.get_piece tgt = some t → t.piece_type ≠ PieceType.General →
      (b.move_piece fr tgt).1.turn = b.turn.opposite) ∧
    (b.get_piece tgt = none →
      (b.move_piece fr tgt).1.turn = b.turn.opposite) := by
  obtain ⟨hs, p, hp, hc, hv⟩ := move_piece_snd_true b fr tgt hsucc
  obtain ⟨hne, hx, hy, p', hp', hfr, hrule⟩ := is_valid_move_true_elim b fr tgt hv
  obtain ⟨hfx, hfy⟩ := get_piece_some_bounds b fr p hp
  rw [move_piece_succ_eq b fr tgt p hs hp hc hv]
  have hne' : tgt.y ≠ fr.y ∨ tgt.x ≠ fr.x := by
    by_contra hcon
    push_neg at hcon
    apply hne
    cases fr; cases tgt
    simp_all
  refine ⟨?_, ?_, ?_, ?_, ?_⟩
  · exact gridGet_gridSet_same _ fr.y fr.x none hfy hfx
  · rw [gridGet_gridSet_ne _ _ _ _ _ _ hne',
      gridGet_gridSet_same _ tgt.y tgt.x _ hy hx,
      get_piece_eq_gridGet b fr hfx hfy]
  · intro y x h1 h2
    rw [gridGet_gridSet_ne _ _ _ _ _ _ h1, gridGet_gridSet_ne _ _ _ _ _ _ h2]
  · intro t ht hgen
    have hns : next_state b tgt = GameState.Playing := by
      simp only [next_state, ht]
      rw [if_neg hgen, hs]
    simp [hns]
  · intro ht
    have hns : next_state b tgt = GameState.Playing := by
      simp only [next_state, ht]
      exact hs
    simp [hns]

theorem spec_c2_witness :
    gridGet (Board.new.move_piece ⟨4, 6⟩ ⟨4, 5⟩).1.grid 6 4 = none ∧
    gridGet (Board.new.move_piece ⟨4, 6⟩ ⟨4, 5⟩).1.grid 5 4 = Board.new.get_piece ⟨4, 6⟩ ∧
    (∀ y x : Nat, (y ≠ 6 ∨ x ≠ 4) → (y ≠ 5 ∨ x ≠ 4) →
      gridGet (Board.new.move_piece ⟨4, 6⟩ ⟨4, 5⟩).1.grid y x = gridGet Board.new.grid y x) ∧
    (∀ t, Board.new.get_piece ⟨4, 5⟩ = some t → t.piece_type ≠ PieceType.General →
      (Board.new.move_piece ⟨4, 6⟩ ⟨4, 5⟩).1.turn = Board.new.turn.opposite) ∧
    (Board.new.get_piece ⟨4, 5⟩ = none →
      (Board.new.move_piece ⟨4, 6⟩ ⟨4, 5⟩).1.turn = Board.new.turn.opposite) :=
  spec_c2_move_effect Board.new ⟨4, 6⟩ ⟨4, 5⟩ rfl (by decide)

/-- C3: a successful move capturing a General at `tgt` puts the game in
`Won` for the mover and leaves the turn with the mover; and the only state
change `move_piece` can ever make is `Playing → Won (mover's color)`. -/
theorem spec_c3_win_transition (b : Board) (fr tgt : Pos) :
    ((b.move_piece fr tgt).2 = true →
      ∀ t, b.get_piece tgt = some t → t.piece_type = PieceType.General →
        (b.move_piece fr tgt).1.state = GameState.Won b.turn ∧
        (b.move_piece fr tgt).1.turn = b.turn) ∧
    ((b.move_piece fr tgt).1.state = b.state ∨
      (b.state = GameState.Playing ∧
        (b.move_piece fr tgt).1.state = GameState.Won b.turn)) := by
  constructor
  · intro hsucc t ht hgen
    obtain ⟨hs, p, hp, hc, hv⟩ := move_piece_snd_true b fr tgt hsucc
    rw [move_piece_succ_eq b fr tgt p hs hp hc hv]
    have hns : next_state b tgt = GameState.Won b.turn := by
      simp only [next_state, ht]
      rw [if_pos hgen]
    exact ⟨by simp [hns], by simp [hns]⟩
  · cases hres : (b.move_piece fr tgt).2 with
    | false =>
        rw [move_piece_snd_false b fr tgt hres]
        exact Or.inl rfl
    | true =>
        obtain ⟨hs, p, hp, hc, hv⟩ := move_piece_snd_true b fr tgt hres
        rw [move_piece_succ_eq b fr tgt p hs hp hc hv]
        show next_state b tgt = b.state ∨
          (b.state = GameState.Playing ∧ next_state b tgt = GameState.Won b.turn)
        cases ht : b.get_piece tgt with
        | none =>
            left
            simp only [next_state, ht]
        | some t =>
            by_cases hg : t.piece_type = PieceType.General
            · right
              refine ⟨hs, ?_⟩
              simp only [next_state, ht]
              rw [if_pos hg]
            · left
              simp only [next_state, ht]
              rw [if_neg hg]

theorem spec_c3_witness :
    (capture_board.move_piece ⟨4, 1⟩ ⟨4, 0⟩).1.state = GameState.Won Color.Red ∧
    (capture_board.move_piece ⟨4, 1⟩ ⟨4, 0⟩).1.turn = Color.Red :=
  (spec_c3_win_transition capture_board ⟨4, 1⟩ ⟨4, 0⟩).1 (by decide)
    ⟨Color.Black, PieceType.General⟩ (by decide) rfl

/-- C4: under the shared preconditions, an axis-aligned Chariot move is
legal iff the path is clear, an axis-aligned Cannon move is legal iff it
jumps exactly one screen when capturing and none when not, and any
diagonal Chariot/Cannon move is illegal. -/
theorem spec_c4_chariot_cannon (b : Board) (fr tgt : Pos) (p : Piece)
    (hpre : shared_pre b fr tgt p) :
    ((fr.x = tgt.x ∨ fr.y = tgt.y) →
      (p.piece_type = PieceType.Chariot →
        (b.is_valid_move fr tgt = true ↔ b.count_obstacles fr tgt = 0)) ∧
      (p.piece_type = PieceType.Cannon →
        ((b.get_piece tgt).isSome →
          (b.is_valid_move fr tgt = true ↔ b.count_obstacles fr tgt = 1)) ∧
        ((b.get_piece tgt).isNone →
          (b.is_valid_move fr tgt = true ↔ b.count_obstacles fr tgt = 0)))) ∧
    ((p.piece_type = PieceType.Chariot ∨ p.piece_type = PieceType.Cannon) →
      fr.x ≠ tgt.x → fr.y ≠ tgt.y → b.is_valid_move fr tgt = false) := by
  obtain ⟨hne, hx, hy, hp, hq⟩ := hpre
  have hv := is_valid_move_of_pre b fr tgt p hne hx hy hp hq
  constructor
  · intro hax
    have hdxy : ¬(((tgt.x : Int) - (fr.x : Int)).natAbs ≠ 0 ∧
        ((tgt.y : Int) - (fr.y : Int)).natAbs ≠ 0) := by
      rcases hax with h | h <;> omega
    refine ⟨?_, ?_⟩
    · intro ht
      rw [hv]
      simp only [Board.piece_rule, ht]
      rw [if_neg hdxy]
      simp
    · intro ht
      constructor
      · intro hsome
        rw [hv]
        simp only [Board.piece_rule, ht]
        rw [if_neg hdxy, if_pos hsome]
        simp
      · intro hnone
        rw [hv]
        simp only [Board.piece_rule, ht]
        rw [if_neg hdxy,
          if_neg (by simp [Option.isNone_iff_eq_none.mp hnone] :
            ¬(b.get_piece tgt).isSome = true)]
        simp
  · intro ht hdx hdy
    have hd : ((tgt.x : Int) - (fr.x : Int)).natAbs ≠ 0 ∧
        ((tgt.y : Int) - (fr.y : Int)).natAbs ≠ 0 := by
      constructor <;> omega
    rw [hv]
    rcases ht with ht | ht <;> simp only [Board.piece_rule, ht] <;> rw [if_pos hd]

theorem spec_c4_witness :
    shared_pre Board.new ⟨0, 9⟩ ⟨0, 8⟩ ⟨Color.Red, PieceType.Chariot⟩ ∧
    (Board.new.is_valid_move ⟨0, 9⟩ ⟨0, 8⟩ = true ↔
      Board.new.count_obstacles ⟨0, 9⟩ ⟨0, 8⟩ = 0) :=
  ⟨by decide,
   ((spec_c4_chariot_cannon Board.new ⟨0, 9⟩ ⟨0, 8⟩ ⟨Color.Red, PieceType.Chariot⟩
      (by decide)).1 (Or.inl rfl)).1 rfl⟩

/-- C5: under the shared preconditions, a Soldier move is legal iff it is
one orthogonal step, never toward its own back rank, and sideways only
after crossing the river. -/
theorem spec_c5_soldier (b : Board) (fr tgt : Pos) (p : Piece)
    (hpre : shared_pre b fr tgt p) (hps : p.piece_type = PieceType.Soldier) :
    b.is_valid_move fr tgt = true ↔
      (((tgt.x : Int) - (fr.x : Int)).natAbs +
          ((tgt.y : Int) - (fr.y : Int)).natAbs = 1 ∧
       (p.color = Color.Red → tgt.y ≤ fr.y) ∧
       (p.color = Color.Black → fr.y ≤ tgt.y) ∧
       (((tgt.x : Int) - (fr.x : Int)).natAbs = 1 →
         (p.color = Color.Red → fr.y < 5) ∧
         (p.color = Color.Black → 4 < fr.y))) := by
  obtain ⟨hne, hx, hy, hp, hq⟩ := hpre
  rw [is_valid_move_of_pre b fr tgt p hne hx hy hp hq]
  obtain ⟨pc, pt⟩ := p
  simp only at hps
  subst hps
  simp only [Board.piece_rule]
  cases pc <;> simp only <;> split_ifs <;> simp_all <;> omega

theorem spec_c5_witness :
    (shared_pre Board.new ⟨4, 6⟩ ⟨4, 5⟩ ⟨Color.Red, PieceType.Soldier⟩ ∧
      Board.new.is_valid_move ⟨4, 6⟩ ⟨4, 5⟩ = true) ∧
    (shared_pre Board.new ⟨4, 6⟩ ⟨3, 6⟩ ⟨Color.Red, PieceType.Soldier⟩ ∧
      Board.new.is_valid_move ⟨4, 6⟩ ⟨3, 6⟩ = false) :=
  ⟨⟨by decide,
    (spec_c5_soldier Board.new ⟨4, 6⟩ ⟨4, 5⟩ ⟨Color.Red, PieceType.Soldier⟩
      (by decide) rfl).mpr (by decide)⟩,
   ⟨by decide, by
    have h := spec_c5_soldier Board.new ⟨4, 6⟩ ⟨3, 6⟩ ⟨Color.Red, PieceType.Soldier⟩
      (by decide) rfl
    revert h
    decide⟩⟩

/-- Shape of the Horse arm of `piece_rule`: a geometric gate followed by an
emptiness check. -/
lemma bool_gate_iff (sh : Prop) [Decidable sh] (o : Option Piece) :
    ((if ¬sh then false else if o.isSome then false else true) = true) ↔
      (sh ∧ o = none) := by
  by_cases hsh : sh <;> cases o <;> simp [hsh]

/-- Shape of the Elephant arm of `piece_rule`: two rejecting gates followed
by an emptiness check. -/
lemma bool_gate3_iff (s1 s2 : Prop) [Decidable s1] [Decidable s2] (o : Option Piece) :
    ((if s1 then false else if s2 then false else if o.isSome then false else true) = true) ↔
      (¬s1 ∧ ¬s2 ∧ o = none) := by
  by_cases h1 : s1 <;> by_cases h2 : s2 <;> cases o <;> simp [h1, h2]

/-- C6: under the shared preconditions, a Horse move is legal iff it is an
L-shape whose leg cell (the midpoint along the longer axis) is empty; in
particular from (0,0) to (2,1) the leg is (1,0) and from (0,0) to (1,2)
the leg is (0,1). -/
theorem spec_c6_horse (b : Board) (fr tgt : Pos) (p : Piece)
    (hpre : shared_pre b fr tgt p) (hph : p.piece_type = PieceType.Horse) :
    (b.is_valid_move fr tgt = true ↔
      (((((tgt.x : Int) - (fr.x : Int)).natAbs = 1 ∧
          ((tgt.y : Int) - (fr.y : Int)).natAbs = 2) ∨
        (((tgt.x : Int) - (fr.x : Int)).natAbs = 2 ∧
          ((tgt.y : Int) - (fr.y : Int)).natAbs = 1)) ∧
        gridGet b.grid
          (if ((tgt.y : Int) - (fr.y : Int)).natAbs = 2 then (fr.y + tgt.y) / 2 else fr.y)
          (if ((tgt.x : Int) - (fr.x : Int)).natAbs = 2 then (fr.x + tgt.x) / 2 else fr.x)
          = none)) ∧
    (fr = ⟨0, 0⟩ → tgt = ⟨2, 1⟩ →
      (b.is_valid_move fr tgt = true ↔ gridGet b.grid 0 1 = none)) ∧
    (fr = ⟨0, 0⟩ → tgt = ⟨1, 2⟩ →
      (b.is_valid_move fr tgt = true ↔ gridGet b.grid 1 0 = none)) := by
  obtain ⟨hne, hx, hy, hp, hq⟩ := hpre
  have hv := is_valid_move_of_pre b fr tgt p hne hx hy hp hq
  have hmain : b.is_valid_move fr tgt = true ↔
      (((((tgt.x : Int) - (fr.x : Int)).natAbs = 1 ∧
          ((tgt.y : Int) - (fr.y : Int)).natAbs = 2) ∨
        (((tgt.x : Int) - (fr.x : Int)).natAbs = 2 ∧
          ((tgt.y : Int) - (fr.y : Int)).natAbs = 1)) ∧
        gridGet b.grid
          (if ((tgt.y : Int) - (fr.y : Int)).natAbs = 2 then (fr.y + tgt.y) / 2 else fr.y)
          (if ((tgt.x : Int) - (fr.x : Int)).natAbs = 2 then (fr.x + tgt.x) / 2 else fr.x)
          = none) := by
    rw [hv]
    simp only [Board.piece_rule, hph]
    exact bool_gate_iff _ _
  refine ⟨hmain, ?_, ?_⟩
  · rintro rfl rfl
    rw [hmain]
    norm_num
  · rintro rfl rfl
    rw [hmain]
    norm_num

theorem spec_c6_witness :
    horse_board.is_valid_move ⟨0, 0⟩ ⟨2, 1⟩ = true ↔
      gridGet horse_board.grid 0 1 = none :=
  (spec_c6_horse horse_board ⟨0, 0⟩ ⟨2, 1⟩ ⟨Color.Red, PieceType.Horse⟩
    (by decide) rfl).2.1 rfl rfl

/-- C7: under the shared preconditions, an Elephant move is legal iff it is
a two-step diagonal that stays on its own side of the river and whose eye
cell (the midpoint) is empty; in particular a Red Elephant from (2,9) to
(0,7) is legal iff the eye (1,8) is empty. -/
theorem spec_c7_elephant (b : Board) (fr tgt : Pos) (p : Piece)
    (hpre : shared_pre b fr tgt p) (hpe : p.piece_type = PieceType.Elephant) :
    (b.is_valid_move fr tgt = true ↔
      (((tgt.x : Int) - (fr.x : Int)).natAbs = 2 ∧
       ((tgt.y : Int) - (fr.y : Int)).natAbs = 2 ∧
       (p.color = Color.Red → 5 ≤ tgt.y) ∧
       (p.color = Color.Black → tgt.y ≤ 4) ∧
       gridGet b.grid ((fr.y + tgt.y) / 2) ((fr.x + tgt.x) / 2) = none)) ∧
    (p.color = Color.Red → fr = ⟨2, 9⟩ → tgt = ⟨0, 7⟩ →
      (b.is_valid_move fr tgt = true ↔ gridGet b.grid 8 1 = none)) := by
  obtain ⟨hne, hx, hy, hp, hq⟩ := hpre
  have hv := is_valid_move_of_pre b fr tgt p hne hx hy hp hq
  obtain ⟨pc, pt⟩ := p
  simp only at hpe
  subst hpe
  have hmain : b.is_valid_move fr tgt = true ↔
      (((tgt.x : Int) - (fr.x : Int)).natAbs = 2 ∧
       ((tgt.y : Int) - (fr.y : Int)).natAbs = 2 ∧
       ((Piece.mk pc PieceType.Elephant).color = Color.Red → 5 ≤ tgt.y) ∧
       ((Piece.mk pc PieceType.Elephant).color = Color.Black → tgt.y ≤ 4) ∧
       gridGet b.grid ((fr.y + tgt.y) / 2) ((fr.x + tgt.x) / 2) = none) := by
    rw [hv]
    cases pc <;>
      · simp only [Board.piece_rule]
        rw [bool_gate3_iff]
        simp [Nat.not_lt, and_assoc]
  refine ⟨hmain, ?_⟩
  rintro hcol rfl rfl
  subst hcol
  rw [hmain]
  constructor
  · rintro ⟨-, -, -, -, h⟩
    exact h
  · intro h
    exact ⟨by decide, by decide, fun _ => by decide,
      fun hcon => Color.noConfusion hcon, h⟩

theorem spec_c7_witness :
    elephant_board.is_valid_move ⟨2, 9⟩ ⟨0, 7⟩ = true ↔
      gridGet elephant_board.grid 8 1 = none :=
  (spec_c7_elephant elephant_board ⟨2, 9⟩ ⟨0, 7⟩ ⟨Color.Red, PieceType.Elephant⟩
    (by decide) rfl).2 rfl rfl rfl

end Xiangqi
